import Mathlib

/-!
Verification of the seating-planner core model.

This file gives a shallow embedding of the in-memory seating model of the
repository (the React state and the state-transition functions of
`src/src/app/page.tsx`, plus the near-duplicate variant in
`src/components/WeddingLayout.tsx`) and proves or refutes the specified
properties of that model.

Conventions of the embedding:
* JavaScript numbers that hold coordinates, sizes, rotations and grid sizes
  are modelled as rationals (`ℚ`); counts and capacities as `Nat`.
* The React `setX(prev => ...)` state updates are modelled as pure functions
  `PlannerState → PlannerState`.
* `uid()` (a random id) is modelled by passing the fresh id as an argument.
* `alert(...)` followed by `return` is modelled as a result value
  (`AssignResult.capacityExceeded`) paired with the unchanged state.
-/

/-- Shape of a table, `'round' | 'rect'` in the source. -/
inductive Shape where
  | round
  | rect
deriving DecidableEq, Repr

/-- Type of a fixture, the string union in the source `Fixture` interface. -/
inductive FixtureType where
  | door
  | window
  | stage
  | danceFloor
  | djBooth
  | pillar
  | text
deriving DecidableEq, Repr

/-- The `Guest` interface of `src/src/app/page.tsx`:
`id`, `name`, `table: number | null`, `notes`, `tags`. -/
structure Guest where
  id : String
  name : String
  table : Option Nat
  notes : String
  tags : List String
deriving DecidableEq, Repr

/-- The `Table` interface of `src/src/app/page.tsx` (canvas tables):
geometry, capacity, shape, rotation, locked flag and the array of guest ids. -/
structure Table where
  id : String
  name : String
  number : Nat
  x : ℚ
  y : ℚ
  width : ℚ
  height : ℚ
  capacity : Nat
  shape : Shape
  rotation : ℚ
  locked : Bool
  notes : Option String
  guests : List String
deriving DecidableEq, Repr

/-- The `Fixture` interface of `src/src/app/page.tsx`. -/
structure Fixture where
  id : String
  ftype : FixtureType
  x : ℚ
  y : ℚ
  width : ℚ
  height : ℚ
  rotation : ℚ
  locked : Bool
  label : Option String
  color : Option String
deriving DecidableEq, Repr

/-- The `RoomSettings` interface of `src/src/app/page.tsx`. -/
structure RoomSettings where
  width : ℚ
  height : ℚ
  background : String
  gridEnabled : Bool
  gridSize : ℚ
  snapToGrid : Bool
  allowOverlap : Bool
  scale : ℚ
deriving DecidableEq, Repr

/-- The mutable state of the `SeatingPlanner` component that the modelled
operations read and write: the `tables` count and `capacity` settings, the
`guests` list, the canvas tables and fixtures of `canvasState`, and the
`roomSettings`.  UI-transient fields of `CanvasState` (selection, drag
state, zoom, pan) are omitted: no modelled operation reads them. -/
structure PlannerState where
  numTables : Nat
  capacity : Nat
  guests : List Guest
  canvasTables : List Table
  fixtures : List Fixture
  room : RoomSettings
deriving DecidableEq, Repr

/-- Result communicated to the caller by `addGuestToTable`: the source either
falls through (table missing), raises `alert(... is full ...)` and returns, or
performs the assignment. -/
inductive AssignResult where
  | assigned
  | tableNotFound
  | capacityExceeded
deriving DecidableEq, Repr

/-- The lookup `canvasState.tables.find(t => t.id === tableId)`. -/
def findTable (tables : List Table) (tableId : String) : Option Table :=
  tables.find? (fun t => t.id == tableId)

/-- Occupancy of table number `n` in the list model: the length of
`tableMap.get(n)`, i.e. the guests whose `table` field equals `n`. -/
def tableMapCount (guests : List Guest) (n : Nat) : Nat :=
  (guests.filter (fun g => g.table == some n)).length

/-- The `addGuest` handler of `src/src/app/page.tsx` (lines 250-274): trims the
name and refuses empty names; accepts the requested table only when it is
between 1 and the `tables` count; if the requested table is full
(`current.length >= capacity`) the guest is still created but unassigned;
the new guest is prepended to the list. -/
def addGuest (s : PlannerState) (freshId name : String) (tableInput : Option Nat) :
    PlannerState :=
  let name := name.trim
  if name = "" then s
  else
    let intendedTable : Option Nat :=
      match tableInput with
      | some n => if 1 ≤ n ∧ n ≤ s.numTables then some n else none
      | none => none
    let intendedTable : Option Nat :=
      match intendedTable with
      | some n => if s.capacity ≤ tableMapCount s.guests n then none else some n
      | none => none
    { s with guests :=
        { id := freshId, name := name, table := intendedTable,
          notes := "", tags := [] } :: s.guests }

/-- The `assignTable` function of `src/src/app/page.tsx` (lines 276-280): maps
over the guest list, replacing the matched guest's `table` field.  It touches
no canvas table. -/
def assignTable (s : PlannerState) (guestId : String) (newTable : Option Nat) :
    PlannerState :=
  { s with guests :=
      s.guests.map (fun g => if g.id == guestId then { g with table := newTable } else g) }

/-- The `createTable` function of `src/src/app/page.tsx` (lines 318-334):
`number` is `canvasState.tables.length + 1`. -/
def createTable (tables : List Table) (freshId : String) (x y : ℚ) (shape : Shape) :
    Table :=
  let tableNumber := tables.length + 1
  { id := freshId,
    name := "Table " ++ toString tableNumber,
    number := tableNumber,
    x := x, y := y,
    width := if shape = Shape.round then 120 else 140,
    height := if shape = Shape.round then 120 else 100,
    capacity := 8,
    shape := shape,
    rotation := 0,
    locked := false,
    notes := none,
    guests := [] }

/-- The `addTableToCanvas` function (lines 336-342): appends the new table. -/
def addTableToCanvas (s : PlannerState) (freshId : String) (x y : ℚ) (shape : Shape) :
    PlannerState :=
  { s with canvasTables := s.canvasTables ++ [createTable s.canvasTables freshId x y shape] }

/-- The `updateTablePosition` function (lines 344-351): sets `x`/`y` of the
matched table.  Note: it does not consult the `locked` flag. -/
def updateTablePosition (s : PlannerState) (tableId : String) (x y : ℚ) : PlannerState :=
  { s with canvasTables :=
      s.canvasTables.map (fun t => if t.id == tableId then { t with x := x, y := y } else t) }

/-- The `updateTableCapacity` function (lines 353-360): sets `capacity` of the
matched table.  Note: it does not compare the new capacity with the current
number of assigned guests. -/
def updateTableCapacity (s : PlannerState) (tableId : String) (cap : Nat) : PlannerState :=
  { s with canvasTables :=
      s.canvasTables.map (fun t => if t.id == tableId then { t with capacity := cap } else t) }

/-- The `updateTableRotation` function (lines 573-580).  Note: it does not
consult the `locked` flag. -/
def updateTableRotation (s : PlannerState) (tableId : String) (rot : ℚ) : PlannerState :=
  { s with canvasTables :=
      s.canvasTables.map (fun t => if t.id == tableId then { t with rotation := rot } else t) }

/-- The `toggleTableLock` function (lines 582-589). -/
def toggleTableLock (s : PlannerState) (tableId : String) : PlannerState :=
  { s with canvasTables :=
      s.canvasTables.map (fun t => if t.id == tableId then { t with locked := !t.locked } else t) }

/-- The `removeTableFromCanvas` function (lines 362-375): if the table is
found, every guest whose id is in `table.guests` gets `table := null`; the
table list is then filtered by id (the filter runs regardless). -/
def removeTableFromCanvas (s : PlannerState) (tableId : String) : PlannerState :=
  let s :=
    match findTable s.canvasTables tableId with
    | some table =>
        { s with guests :=
            s.guests.map (fun (g : Guest) =>
              if table.guests.contains g.id then { g with table := none } else g) }
    | none => s
  { s with canvasTables := s.canvasTables.filter (fun t => !(t.id == tableId)) }

/-- The per-table update `t => ({ ...t, guests: t.guests.filter(g => g !== guestId) })`
of `addGuestToTable` (lines 388-394). -/
def stripGuest (guestId : String) (t : Table) : Table :=
  { t with guests := t.guests.filter (fun g => !(g == guestId)) }

/-- The per-table update `t => t.id === tableId ? { ...t, guests: [...t.guests, guestId] } : t`
of `addGuestToTable` (lines 397-402). -/
def appendGuest (guestId tableId : String) (t : Table) : Table :=
  if t.id == tableId then { t with guests := t.guests ++ [guestId] } else t

/-- The per-guest update `g => g.id === guestId ? { ...g, table: table.number } : g`
of `addGuestToTable` (lines 405-407). -/
def setGuestTable (guestId : String) (n : Nat) (g : Guest) : Guest :=
  if g.id == guestId then { g with table := some n } else g

/-- The `addGuestToTable` function (lines 377-408): returns unchanged if the
table id is unknown; refuses (alert + return) when
`table.guests.length >= table.capacity`; otherwise removes the guest id from
every table's guest array, appends it to the target table's array, and sets
the guest's `table` field to the (pre-lookup) target table's `number`. -/
def addGuestToTable (s : PlannerState) (guestId tableId : String) :
    PlannerState × AssignResult :=
  match findTable s.canvasTables tableId with
  | none => (s, AssignResult.tableNotFound)
  | some table =>
    if table.capacity ≤ table.guests.length then
      (s, AssignResult.capacityExceeded)
    else
      let tables1 := s.canvasTables.map (stripGuest guestId)
      let tables2 := tables1.map (appendGuest guestId tableId)
      let guests1 := s.guests.map (setGuestTable guestId table.number)
      ({ s with canvasTables := tables2, guests := guests1 }, AssignResult.assigned)

/-- The `removeGuest` function (lines 697-699): filters the guest out of the
guest list.  It touches neither the canvas tables nor any other guest. -/
def removeGuest (s : PlannerState) (guestId : String) : PlannerState :=
  { s with guests := s.guests.filter (fun g => !(g.id == guestId)) }

/-- The guard wrapped around `updateTablePosition` at its drag call site
(`onDragStop`, lines 1445-1449, and the keyboard handler, lines 650-666):
the position update is only issued when the table is present and not locked. -/
def tableDragStop (s : PlannerState) (tableId : String) (x y : ℚ) : PlannerState :=
  match findTable s.canvasTables tableId with
  | some table => if table.locked then s else updateTablePosition s tableId x y
  | none => s

/-- The `snapToGrid` function of `src/src/app/page.tsx` (lines 492-495) and of
`src/components/WeddingLayout.tsx` (lines 199-202):
`Math.round(value / gridSize) * gridSize` when `snapToGrid` is on, identity
otherwise.  `Math.round` rounds half towards positive infinity, which is
Mathlib's `round`. -/
def snapToGrid (rs : RoomSettings) (value : ℚ) : ℚ :=
  if !rs.snapToGrid then value
  else round (value / rs.gridSize) * rs.gridSize

/-- One inner step of the dynamic-programming loop of `levenshteinDistance`
(lines 822-834): walks the remaining characters `cs` of `str1` together with
the tail `up :: ups` of the previous matrix row, carrying the diagonal entry
`diag` (`matrix[i-1][j-1]`) and the entry `left` just written
(`matrix[i][j-1]`), producing the rest of the current row. -/
def levNext (c2 : Char) : List Char → Nat → List Nat → Nat → List Nat
  | [], _, _, _ => []
  | _ :: _, _, [], _ => []
  | c1 :: cs, diag, up :: ups, left =>
      let v := if c2 == c1 then diag
               else Nat.min (diag + 1) (Nat.min (left + 1) (up + 1))
      v :: levNext c2 cs up ups v

/-- The outer row loop of `levenshteinDistance` (lines 814-834): starting from
row `i` (already holding the row for the first `i` characters of `str2`),
produces the final matrix row after consuming the rest of `str2`; each new row
starts with its row index (`matrix[i][0] = i`). -/
def levLoop (s1 : List Char) : List Char → Nat → List Nat → List Nat
  | [], _, prev => prev
  | c2 :: rest, i, prev =>
      let cur :=
        match prev with
        | d :: ups => (i + 1) :: levNext c2 s1 d ups (i + 1)
        | [] => []
      levLoop s1 rest (i + 1) cur

/-- The `levenshteinDistance` function of `src/src/app/page.tsx`
(lines 811-837): the full-matrix dynamic program; row 0 is `0, 1, ..., len1`
and the answer is `matrix[str2.length][str1.length]`, the last entry of the
final row. -/
def levenshteinDistance (str1 str2 : String) : Nat :=
  (levLoop str1.data str2.data 0 (List.range (str1.data.length + 1))).getLastD 0

/-- Modelled from the spec (for comparison with the code's DP): the
Levenshtein edit distance by its textbook recursive characterization, here
recursing on the heads of the two character lists.  `levenshteinSpec` below
applies it to reversed lists, which makes its unfolding the textbook
prefix-table recurrence that the source DP tabulates. -/
def levAux : List Char → List Char → Nat
  | [], ys => ys.length
  | _ :: xs, [] => xs.length + 1
  | x :: xs, y :: ys =>
      if x == y then levAux xs ys
      else 1 + Nat.min (levAux xs ys)
        (Nat.min (levAux xs (y :: ys)) (levAux (x :: xs) ys))
termination_by xs ys => xs.length + ys.length
decreasing_by all_goals (simp only [List.length_cons]; omega)

/-- Modelled from the spec: the Levenshtein distance between two strings,
the mathematical reference point for `similarity = (max - levenshtein) / max`.
It is proved symmetric (`levenshteinSpec_comm`) and equal to the source's
dynamic program (`levenshteinDistance_correct`). -/
def levenshteinSpec (str1 str2 : String) : Nat :=
  levAux str1.data.reverse str2.data.reverse

/-- The `calculateSimilarity` function (lines 801-809):
`(longer.length - editDistance) / longer.length`, on the longer/shorter
ordering of the two strings, and 1.0 for two empty strings. -/
def calculateSimilarity (str1 str2 : String) : ℚ :=
  let longer := if str2.length < str1.length then str1 else str2
  let shorter := if str2.length < str1.length then str2 else str1
  if longer.length = 0 then 1
  else ((longer.length : ℚ) - (levenshteinDistance longer shorter : ℚ)) /
    (longer.length : ℚ)

/-- The `[...new Set(duplicates)]` step (line 798): keeps the first occurrence
of each string, in order. -/
def dedupFirst (l : List String) : List String :=
  l.foldl (fun acc x => if acc.contains x then acc else acc ++ [x]) []

/-- Character-wise lower-casing (the `toLowerCase()` calls of the source),
written on the character list so that it evaluates by kernel reduction. -/
def strToLower (s : String) : String := ⟨s.data.map Char.toLower⟩

/-- The `checkForDuplicates` function (lines 773-799): a candidate that
case-insensitively equals an existing name yields an `(exact match)` warning
and is not examined further; otherwise every distinct existing name with
similarity above 0.8 yields a `(similar to "...")` warning naming the stored
guest; the warning list is deduplicated in first-occurrence order. -/
def checkForDuplicates (guests : List Guest) (newNames : List String) :
    List String :=
  let existingNames := guests.map (fun g => strToLower g.name)
  let duplicates := newNames.flatMap (fun name =>
    let nameLower := strToLower name
    if existingNames.contains nameLower then
      [name ++ " (exact match)"]
    else
      existingNames.filterMap (fun existing =>
        if existing ≠ nameLower ∧
            (8 : ℚ)/10 < calculateSimilarity nameLower existing then
          some (name ++ " (similar to \"" ++
            (match guests.find? (fun g => strToLower g.name == existing) with
             | some g => g.name
             | none => "undefined") ++ "\")")
        else none))
  dedupFirst duplicates

/-- The entries `levAux ((cs.take k).reverse ++ r1) q` for `k = 1, ..., |cs|`:
the tail of the matrix row for the already-consumed reversed prefix `q` of the
second string, where `r1` is the reversed consumed prefix of the first. -/
def specRow (r1 q : List Char) : List Char → List Nat
  | [] => []
  | c1 :: cs => levAux (c1 :: r1) q :: specRow (c1 :: r1) q cs

/-- Operations named by the capacity-invariant property: `addGuest`,
`assignGuestToTable`/`addGuestToTable`, `updateTableCapacity`,
`deleteTable` (`removeTableFromCanvas`) and `removeGuest`. -/
inductive Op where
  | addGuest (freshId name : String) (tableInput : Option Nat)
  | assignGuestToTable (guestId tableId : String)
  | updateTableCapacity (tableId : String) (cap : Nat)
  | deleteTable (tableId : String)
  | removeGuest (guestId : String)
deriving DecidableEq, Repr

/-- Dispatch of an operation to the corresponding source function. -/
def applyOp (s : PlannerState) : Op → PlannerState
  | Op.addGuest fid name ti => addGuest s fid name ti
  | Op.assignGuestToTable gid tid => (addGuestToTable s gid tid).1
  | Op.updateTableCapacity tid c => updateTableCapacity s tid c
  | Op.deleteTable tid => removeTableFromCanvas s tid
  | Op.removeGuest gid => removeGuest s gid

/-- A sequence of operations applied in order. -/
def applyOps (s : PlannerState) (ops : List Op) : PlannerState :=
  ops.foldl applyOp s

/-- Recognizer for the capacity-update operation. -/
def isCapacityUpdate : Op → Bool
  | Op.updateTableCapacity _ _ => true
  | _ => false

/-- The capacity invariant: every canvas table holds at most `capacity`
guest ids. -/
def capacityInv (s : PlannerState) : Prop :=
  ∀ t ∈ s.canvasTables, t.guests.length ≤ t.capacity

instance capacityInvDecidable (s : PlannerState) : Decidable (capacityInv s) :=
  inferInstanceAs (Decidable (∀ t ∈ s.canvasTables, t.guests.length ≤ t.capacity))

/-- The bidirectional guest-table consistency invariant, executable form:
every guest with a non-null `table` field has exactly one canvas table whose
`number` equals that field and whose guest set holds the guest's id, and every
guest id in a table's guest set belongs to a guest whose `table` field equals
that table's number. -/
def lockstepB (s : PlannerState) : Bool :=
  (s.guests.all (fun g =>
      match g.table with
      | some n =>
          s.canvasTables.countP
            (fun t => t.number == n && t.guests.contains g.id) == 1
      | none => true)) &&
  (s.canvasTables.all (fun t => t.guests.all (fun gid =>
      s.guests.any (fun g => g.id == gid && g.table == some t.number))))

/-- The bidirectional consistency invariant as a proposition. -/
def lockstep (s : PlannerState) : Prop :=
  lockstepB s = true

instance lockstepDecidable (s : PlannerState) : Decidable (lockstep s) :=
  inferInstanceAs (Decidable (lockstepB s = true))

/-- Table numbers are exactly `1, 2, ..., length`, the state reachable by
`addTableToCanvas` alone. -/
def tableNumbersSequential (s : PlannerState) : Prop :=
  s.canvasTables.map Table.number = List.range' 1 s.canvasTables.length

instance tableNumbersSequentialDecidable (s : PlannerState) :
    Decidable (tableNumbersSequential s) :=
  inferInstanceAs
    (Decidable (s.canvasTables.map Table.number = List.range' 1 s.canvasTables.length))

/-- A sequence of `addTableToCanvas` calls, each given by a fresh id, a
position and a shape. -/
def applyAddTables (s : PlannerState) (adds : List (String × ℚ × ℚ × Shape)) :
    PlannerState :=
  adds.foldl (fun st a => addTableToCanvas st a.1 a.2.1 a.2.2.1 a.2.2.2) s

/-- Occupancy read of a canvas table: guest count of the table with the given
id, if present (the `table.guests.length` read of the source). -/
def tableOccupancy (s : PlannerState) (tid : String) : Option Nat :=
  (findTable s.canvasTables tid).map (fun t => t.guests.length)

/-- Whether the table with the given id holds the given guest id. -/
def tableHasGuest (s : PlannerState) (tid gid : String) : Option Bool :=
  (findTable s.canvasTables tid).map (fun t => t.guests.contains gid)

/-- Number of canvas tables whose guest set holds the given guest id. -/
def tablesContaining (s : PlannerState) (gid : String) : Nat :=
  s.canvasTables.countP (fun t => t.guests.contains gid)

/-- The default `roomSettings` initial state of the source component. -/
def mkRoom : RoomSettings :=
  { width := 1200, height := 800, background := "#f8fafc", gridEnabled := true,
    gridSize := 10, snapToGrid := true, allowOverlap := false, scale := 20 }

/-- Sample guest builder for concrete instances. -/
def mkGuest (id name : String) (table : Option Nat) : Guest :=
  { id := id, name := name, table := table, notes := "", tags := [] }

/-- Sample canvas-table builder for concrete instances. -/
def mkTable (id : String) (number capacity : Nat) (guests : List String)
    (locked : Bool) : Table :=
  { id := id, name := "Table " ++ toString number, number := number,
    x := 100, y := 100, width := 120, height := 120, capacity := capacity,
    shape := Shape.round, rotation := 0, locked := locked, notes := none,
    guests := guests }

/-- Sample planner state builder (default settings of the source:
16 tables, capacity 10). -/
def mkState (guests : List Guest) (tables : List Table) : PlannerState :=
  { numTables := 16, capacity := 10, guests := guests, canvasTables := tables,
    fixtures := [], room := mkRoom }

/-- C9: when snap-to-grid is enabled, `snap(v) = round(v / g) * g`; snap is
idempotent; when snap-to-grid is disabled, snap is the identity. -/
theorem snapToGrid_spec (rs : RoomSettings) (v : ℚ) (hg : 0 < rs.gridSize) :
    (rs.snapToGrid = true →
        snapToGrid rs v = round (v / rs.gridSize) * rs.gridSize) ∧
    snapToGrid rs (snapToGrid rs v) = snapToGrid rs v ∧
    (rs.snapToGrid = false → snapToGrid rs v = v) := by
  refine ⟨?_, ?_, ?_⟩
  · intro h
    simp [snapToGrid, h]
  · by_cases h : rs.snapToGrid
    · have hg0 : rs.gridSize ≠ 0 := ne_of_gt hg
      simp only [snapToGrid, h, Bool.not_true, Bool.false_eq_true, if_false]
      rw [mul_div_cancel_right₀ _ hg0]
      rw [round_intCast]
    · simp [snapToGrid, h]
  · intro h
    simp [snapToGrid, h]

/-- Witness for C9 at a concrete input: grid size 10, snapping enabled,
value 23 snaps to 20 and all three conjuncts evaluate. -/
theorem snapToGrid_spec_witness :
    (0 : ℚ) < (10 : ℚ) ∧
      ((true = true →
          snapToGrid { width := 1200, height := 800, background := "", gridEnabled := true,
                       gridSize := 10, snapToGrid := true, allowOverlap := false,
                       scale := 20 } 23 =
            round ((23 : ℚ) / 10) * 10) ∧
        snapToGrid { width := 1200, height := 800, background := "", gridEnabled := true,
                     gridSize := 10, snapToGrid := true, allowOverlap := false,
                     scale := 20 }
          (snapToGrid { width := 1200, height := 800, background := "", gridEnabled := true,
                        gridSize := 10, snapToGrid := true, allowOverlap := false,
                        scale := 20 } 23) =
          snapToGrid { width := 1200, height := 800, background := "", gridEnabled := true,
                       gridSize := 10, snapToGrid := true, allowOverlap := false,
                       scale := 20 } 23 ∧
        (true = false →
          snapToGrid { width := 1200, height := 800, background := "", gridEnabled := true,
                       gridSize := 10, snapToGrid := true, allowOverlap := false,
                       scale := 20 } 23 = 23)) :=
  ⟨by norm_num,
   snapToGrid_spec
     { width := 1200, height := 800, background := "", gridEnabled := true,
       gridSize := 10, snapToGrid := true, allowOverlap := false, scale := 20 }
     23 (by norm_num)⟩

/-- C3: when the target table's occupancy is at or above its capacity,
`addGuestToTable` signals `CapacityExceeded` and returns the state unchanged
(no guest and no table is mutated). -/
theorem addGuestToTable_full_noop (s : PlannerState) (guestId tableId : String)
    (t : Table) (hfind : findTable s.canvasTables tableId = some t)
    (hfull : t.capacity ≤ t.guests.length) :
    addGuestToTable s guestId tableId = (s, AssignResult.capacityExceeded) := by
  simp [addGuestToTable, hfind, hfull]

/-- Witness for C3: a concrete full table (capacity 1 holding one guest);
the call returns the state unchanged with `capacityExceeded`. -/
theorem addGuestToTable_full_noop_witness :
    findTable (mkState [mkGuest "g1" "Ann" (some 1), mkGuest "g2" "Bob" none]
        [mkTable "t1" 1 1 ["g1"] false]).canvasTables "t1" =
      some (mkTable "t1" 1 1 ["g1"] false) ∧
    (mkTable "t1" 1 1 ["g1"] false).capacity ≤
      (mkTable "t1" 1 1 ["g1"] false).guests.length ∧
    addGuestToTable (mkState [mkGuest "g1" "Ann" (some 1), mkGuest "g2" "Bob" none]
        [mkTable "t1" 1 1 ["g1"] false]) "g2" "t1" =
      (mkState [mkGuest "g1" "Ann" (some 1), mkGuest "g2" "Bob" none]
        [mkTable "t1" 1 1 ["g1"] false], AssignResult.capacityExceeded) :=
  ⟨by decide, by decide,
   addGuestToTable_full_noop _ "g2" "t1" (mkTable "t1" 1 1 ["g1"] false)
     (by decide) (by decide)⟩

/-- C7 counterexample: `updateTablePosition` called on a locked table does
mutate its position (the function never consults the `locked` flag), so the
claim that the update operations themselves refuse locked tables is false. -/
theorem updateTablePosition_locked_counterexample :
    (mkState [] [mkTable "t1" 1 8 [] true]).canvasTables.map Table.locked = [true] ∧
    (mkState [] [mkTable "t1" 1 8 [] true]).canvasTables.map Table.x = [100] ∧
    (updateTablePosition (mkState [] [mkTable "t1" 1 8 [] true]) "t1" 5 7).canvasTables.map
        Table.x = [5] := by
  refine ⟨rfl, by decide, by decide⟩

/-- C7 amended: the lock is enforced at the call sites, not inside the update
functions; the drag-stop/keyboard path around `updateTablePosition` is a
silent no-op when the table is locked. -/
theorem tableDragStop_locked_noop (s : PlannerState) (tableId : String) (x y : ℚ)
    (t : Table) (hfind : findTable s.canvasTables tableId = some t)
    (hlock : t.locked = true) :
    tableDragStop s tableId x y = s := by
  simp [tableDragStop, hfind, hlock]

/-- Witness for the amended C7: a concrete locked table; the guarded drag
handler leaves the state unchanged. -/
theorem tableDragStop_locked_noop_witness :
    findTable (mkState [] [mkTable "t1" 1 8 [] true]).canvasTables "t1" =
      some (mkTable "t1" 1 8 [] true) ∧
    (mkTable "t1" 1 8 [] true).locked = true ∧
    tableDragStop (mkState [] [mkTable "t1" 1 8 [] true]) "t1" 5 7 =
      mkState [] [mkTable "t1" 1 8 [] true] :=
  ⟨by decide, by decide,
   tableDragStop_locked_noop _ "t1" 5 7 (mkTable "t1" 1 8 [] true)
     (by decide) (by decide)⟩

/-- C2, code bug: `assignTable` sets the guest's `table` field without
inserting the guest into any canvas table's guest set, so the bidirectional
invariant is broken by an operation that mutates one collection independently.
Before the call the invariant holds; after it the guest references table
number 1 while no canvas table holds the guest. -/
theorem assignTable_breaks_lockstep :
    lockstep (mkState [mkGuest "g1" "Ann" none] []) ∧
    ¬ lockstep (assignTable (mkState [mkGuest "g1" "Ann" none] []) "g1" (some 1)) := by
  constructor
  · decide
  · decide

/-- C6, code bug: `removeGuest` deletes the guest record but leaves the
guest's id inside the canvas table's guest set (it only filters the guest
list), so a dangling reference remains. -/
theorem removeGuest_leaves_dangling_reference :
    (removeGuest (mkState [mkGuest "g1" "Ann" (some 1)]
        [mkTable "t1" 1 8 ["g1"] false]) "g1").guests = [] ∧
    (removeGuest (mkState [mkGuest "g1" "Ann" (some 1)]
        [mkTable "t1" 1 8 ["g1"] false]) "g1").canvasTables.map Table.guests =
      [["g1"]] := by
  constructor
  · decide
  · decide

/-- C8 counterexample: table numbers are `length + 1`; adding two tables,
deleting the first and adding a third yields two tables both numbered 2, so
numbers are neither distinct nor fresh. -/
theorem addTable_duplicate_number_counterexample :
    ((addTableToCanvas
        (removeTableFromCanvas
          (addTableToCanvas
            (addTableToCanvas (mkState [] []) "a" 100 100 Shape.round)
            "b" 100 100 Shape.round)
          "a")
        "c" 100 100 Shape.round).canvasTables.map Table.number) = [2, 2] ∧
    ¬ ((addTableToCanvas
        (removeTableFromCanvas
          (addTableToCanvas
            (addTableToCanvas (mkState [] []) "a" 100 100 Shape.round)
            "b" 100 100 Shape.round)
          "a")
        "c" 100 100 Shape.round).canvasTables.map Table.number).Nodup := by
  constructor
  · decide
  · decide

/-- Mapping a table-update that keeps ids leaves the id projection unchanged. -/
theorem map_table_id_invariant (f : Table → Table) (hf : ∀ t, (f t).id = t.id)
    (l : List Table) : (l.map f).map Table.id = l.map Table.id := by
  induction l with
  | nil => rfl
  | cons t l ih => simp [hf, ih]

/-- The `addGuest` handler never touches the canvas tables. -/
theorem addGuest_canvasTables (s : PlannerState) (fid name : String)
    (ti : Option Nat) : (addGuest s fid name ti).canvasTables = s.canvasTables := by
  by_cases h : name.trim = "" <;> simp [addGuest, h]

/-- The canvas-table list after `removeTableFromCanvas` is the id-filter of
the previous list (whether or not the id was present). -/
theorem removeTableFromCanvas_canvasTables (s : PlannerState) (tid : String) :
    (removeTableFromCanvas s tid).canvasTables =
      s.canvasTables.filter (fun t => !(t.id == tid)) := by
  unfold removeTableFromCanvas
  cases h : findTable s.canvasTables tid <;> simp [h]

/-- The `stripGuest` update keeps the table id. -/
theorem stripGuest_id (gid : String) : ∀ t : Table, (stripGuest gid t).id = t.id :=
  fun _ => rfl

/-- The `appendGuest` update keeps the table id. -/
theorem appendGuest_id (gid tid : String) :
    ∀ t : Table, (appendGuest gid tid t).id = t.id := fun t => by
  by_cases h : (t.id == tid) <;> simp [appendGuest, h]

/-- The `addGuestToTable` function keeps the id projection of the canvas
tables unchanged. -/
theorem addGuestToTable_ids (s : PlannerState) (gid tid : String) :
    ((addGuestToTable s gid tid).1.canvasTables).map Table.id =
      s.canvasTables.map Table.id := by
  unfold addGuestToTable
  cases hfind : findTable s.canvasTables tid with
  | none => rfl
  | some table =>
    by_cases hfull : table.capacity ≤ table.guests.length
    · simp [hfull]
    · simp only [if_neg hfull]
      rw [map_table_id_invariant (appendGuest gid tid) (appendGuest_id gid tid),
          map_table_id_invariant (stripGuest gid) (stripGuest_id gid)]

/-- The `updateTableCapacity` function keeps the id projection unchanged. -/
theorem updateTableCapacity_ids (s : PlannerState) (tid : String) (c : Nat) :
    ((updateTableCapacity s tid c).canvasTables).map Table.id =
      s.canvasTables.map Table.id :=
  map_table_id_invariant _ (fun t => by by_cases h : (t.id == tid) <;> simp [h]) _

/-- Preservation of the capacity invariant by one `addGuestToTable` call,
assuming pairwise-distinct table ids. -/
theorem capacityInv_addGuestToTable (s : PlannerState) (gid tid : String)
    (hinv : capacityInv s) (hids : (s.canvasTables.map Table.id).Nodup) :
    capacityInv (addGuestToTable s gid tid).1 := by
  unfold capacityInv at hinv ⊢
  unfold addGuestToTable
  cases hfind : findTable s.canvasTables tid with
  | none => exact hinv
  | some table =>
    by_cases hfull : table.capacity ≤ table.guests.length
    · simp only [if_pos hfull]
      exact hinv
    · simp only [if_neg hfull]
      intro t' ht'
      simp only [List.map_map] at ht'
      obtain ⟨t, htl, rfl⟩ := List.mem_map.1 ht'
      by_cases hid : t.id = tid
      · have htable_mem : table ∈ s.canvasTables := List.mem_of_find?_eq_some hfind
        have htable_id : table.id = tid := by
          have h := List.find?_some hfind
          simpa using h
        have hteq : t = table :=
          List.inj_on_of_nodup_map hids htl htable_mem (by rw [hid, htable_id])
        subst hteq
        have hlt : t.guests.length < t.capacity := Nat.lt_of_not_le hfull
        have hle := List.length_filter_le (fun g => !(g == gid)) t.guests
        simp only [Function.comp_apply, appendGuest, stripGuest, hid,
          beq_self_eq_true, if_true, List.length_append, List.length_cons,
          List.length_nil]
        omega
      · have hidb : (t.id == tid) = false := by simpa using hid
        simp only [Function.comp_apply, appendGuest, stripGuest, hidb,
          Bool.false_eq_true, if_false]
        exact le_trans (List.length_filter_le _ _) (hinv t htl)

/-- Preservation of the capacity invariant by every operation except
`updateTableCapacity`. -/
theorem capacityInv_applyOp (s : PlannerState) (op : Op)
    (hinv : capacityInv s) (hids : (s.canvasTables.map Table.id).Nodup)
    (hop : isCapacityUpdate op = false) :
    capacityInv (applyOp s op) := by
  cases op with
  | addGuest fid name ti =>
      intro t ht
      rw [show (applyOp s (Op.addGuest fid name ti)).canvasTables =
            (addGuest s fid name ti).canvasTables from rfl,
          addGuest_canvasTables] at ht
      exact hinv t ht
  | assignGuestToTable gid tid =>
      exact capacityInv_addGuestToTable s gid tid hinv hids
  | updateTableCapacity tid c => simp [isCapacityUpdate] at hop
  | deleteTable tid =>
      intro t ht
      rw [show (applyOp s (Op.deleteTable tid)).canvasTables =
            (removeTableFromCanvas s tid).canvasTables from rfl,
          removeTableFromCanvas_canvasTables] at ht
      exact hinv t (List.mem_of_mem_filter ht)
  | removeGuest gid => exact hinv

/-- Preservation of id distinctness by every operation. -/
theorem ids_nodup_applyOp (s : PlannerState) (op : Op)
    (hids : (s.canvasTables.map Table.id).Nodup) :
    (((applyOp s op).canvasTables).map Table.id).Nodup := by
  cases op with
  | addGuest fid name ti =>
      rw [show (applyOp s (Op.addGuest fid name ti)).canvasTables =
            (addGuest s fid name ti).canvasTables from rfl,
          addGuest_canvasTables]
      exact hids
  | assignGuestToTable gid tid =>
      rw [show applyOp s (Op.assignGuestToTable gid tid) =
            (addGuestToTable s gid tid).1 from rfl,
          addGuestToTable_ids]
      exact hids
  | updateTableCapacity tid c =>
      rw [show applyOp s (Op.updateTableCapacity tid c) =
            updateTableCapacity s tid c from rfl,
          updateTableCapacity_ids]
      exact hids
  | deleteTable tid =>
      rw [show (applyOp s (Op.deleteTable tid)).canvasTables =
            (removeTableFromCanvas s tid).canvasTables from rfl,
          removeTableFromCanvas_canvasTables]
      exact hids.sublist ((List.filter_sublist _).map _)
  | removeGuest gid => exact hids

/-- C1 amended: after every sequence of `addGuest`,
`assignGuestToTable`/`addGuestToTable`, `deleteTable` and `removeGuest`
operations from a state with distinct table ids that satisfies the capacity
invariant, every table still holds at most `capacity` guests.
(`updateTableCapacity` is excluded: it can violate the invariant, see the
counterexample.) -/
theorem capacityInv_after_ops (s : PlannerState) (ops : List Op)
    (hinv : capacityInv s) (hids : (s.canvasTables.map Table.id).Nodup)
    (hops : ∀ op ∈ ops, isCapacityUpdate op = false) :
    capacityInv (applyOps s ops) := by
  induction ops generalizing s with
  | nil => exact hinv
  | cons op rest ih =>
      exact ih (applyOp s op)
        (capacityInv_applyOp s op hinv hids (hops op (List.mem_cons_self op rest)))
        (ids_nodup_applyOp s op hids)
        (fun o ho => hops o (List.mem_cons_of_mem op ho))

/-- C1 counterexample: `updateTableCapacity` sets the new capacity without
checking current occupancy, so lowering the capacity of an occupied table
breaks the invariant. -/
theorem updateTableCapacity_breaks_capacityInv :
    capacityInv (mkState [mkGuest "g1" "Ann" (some 1)]
      [mkTable "t1" 1 1 ["g1"] false]) ∧
    ¬ capacityInv (applyOp (mkState [mkGuest "g1" "Ann" (some 1)]
      [mkTable "t1" 1 1 ["g1"] false]) (Op.updateTableCapacity "t1" 0)) := by
  constructor
  · decide
  · decide

/-- Witness for the amended C1 at a concrete input: one empty table of
capacity 2, assigning a guest, deleting the table and removing the guest; the
invariant holds at every hypothesis and after the sequence. -/
theorem capacityInv_after_ops_witness :
    capacityInv (mkState [mkGuest "g1" "Ann" none] [mkTable "t1" 1 2 [] false]) ∧
    ((mkState [mkGuest "g1" "Ann" none]
        [mkTable "t1" 1 2 [] false]).canvasTables.map Table.id).Nodup ∧
    (∀ op ∈ [Op.assignGuestToTable "g1" "t1", Op.deleteTable "t1",
        Op.removeGuest "g1"], isCapacityUpdate op = false) ∧
    capacityInv (applyOps (mkState [mkGuest "g1" "Ann" none]
        [mkTable "t1" 1 2 [] false])
      [Op.assignGuestToTable "g1" "t1", Op.deleteTable "t1",
        Op.removeGuest "g1"]) :=
  ⟨by decide, by decide, by decide,
   capacityInv_after_ops _ _ (by decide) (by decide) (by decide)⟩

/-- One `addTableToCanvas` keeps table numbers equal to `1, ..., length`. -/
theorem addTableToCanvas_numbers (s : PlannerState) (fid : String) (x y : ℚ)
    (sh : Shape) (h : tableNumbersSequential s) :
    tableNumbersSequential (addTableToCanvas s fid x y sh) := by
  unfold tableNumbersSequential at h ⊢
  simp only [addTableToCanvas, createTable, List.map_append, List.map_cons,
    List.map_nil, List.length_append, List.length_cons, List.length_nil]
  rw [h, List.range'_concat]
  norm_num
  omega

/-- C8 amended: `addTable` assigns `length + 1`; starting from a state whose
numbers are exactly `1, ..., length` (e.g. a state built by additions alone),
any further sequence of `addTableToCanvas` calls keeps all display numbers
pairwise distinct, and the next assigned number is not currently in use.
After a deletion the numbering assumption can fail and numbers can collide
(see the counterexample). -/
theorem addTable_unique_numbers (s : PlannerState)
    (adds : List (String × ℚ × ℚ × Shape)) (h : tableNumbersSequential s) :
    tableNumbersSequential (applyAddTables s adds) ∧
    ((applyAddTables s adds).canvasTables.map Table.number).Nodup ∧
    (s.canvasTables.length + 1) ∉ s.canvasTables.map Table.number := by
  have hseq : tableNumbersSequential (applyAddTables s adds) := by
    induction adds generalizing s with
    | nil => exact h
    | cons a rest ih => exact ih _ (addTableToCanvas_numbers _ _ _ _ _ h)
  refine ⟨hseq, ?_, ?_⟩
  · rw [hseq]
    exact List.nodup_range' _ _
  · rw [h]
    simp only [List.mem_range']
    omega

/-- Witness for the amended C8: two additions from the empty canvas give
tables numbered 1 and 2, all distinct, and number 1 was fresh. -/
theorem addTable_unique_numbers_witness :
    tableNumbersSequential (mkState [] []) ∧
    (tableNumbersSequential (applyAddTables (mkState [] [])
        [("a", 100, 100, Shape.round), ("b", 200, 150, Shape.rect)]) ∧
      ((applyAddTables (mkState [] [])
          [("a", 100, 100, Shape.round), ("b", 200, 150, Shape.rect)]).canvasTables.map
          Table.number).Nodup ∧
      ((mkState [] []).canvasTables.length + 1) ∉
        (mkState [] []).canvasTables.map Table.number) :=
  ⟨by decide,
   addTable_unique_numbers (mkState [] [])
     [("a", 100, 100, Shape.round), ("b", 200, 150, Shape.rect)] (by decide)⟩

/-- C5: `removeTableFromCanvas` removes every table with the given id; when
the id does not exist the whole state is unchanged; when it exists, every
guest whose id is in the deleted table's guest set reappears with a null
table reference, and every other guest is untouched. -/
theorem removeTable_spec (s : PlannerState) (tid : String) :
    (∀ t' ∈ (removeTableFromCanvas s tid).canvasTables, t'.id ≠ tid) ∧
    (findTable s.canvasTables tid = none → removeTableFromCanvas s tid = s) ∧
    (∀ t, findTable s.canvasTables tid = some t →
      ∀ g ∈ s.guests,
        (g.id ∈ t.guests →
          { g with table := none } ∈ (removeTableFromCanvas s tid).guests) ∧
        (g.id ∉ t.guests → g ∈ (removeTableFromCanvas s tid).guests)) := by
  refine ⟨?_, ?_, ?_⟩
  · intro t' ht'
    rw [removeTableFromCanvas_canvasTables] at ht'
    have := (List.mem_filter.1 ht').2
    simpa using this
  · intro hnone
    have hall : ∀ t ∈ s.canvasTables, !(t.id == tid) := by
      intro t ht
      have := List.find?_eq_none.1 hnone t ht
      simpa using this
    unfold removeTableFromCanvas
    rw [hnone]
    show { s with canvasTables := s.canvasTables.filter (fun t => !(t.id == tid)) } = s
    rw [List.filter_eq_self.mpr hall]
  · intro t hfind g hg
    have hguests : (removeTableFromCanvas s tid).guests =
        s.guests.map (fun (g : Guest) =>
          if t.guests.contains g.id then { g with table := none } else g) := by
      unfold removeTableFromCanvas
      rw [hfind]
    constructor
    · intro hmem
      rw [hguests]
      refine List.mem_map.2 ⟨g, hg, ?_⟩
      simp [hmem]
    · intro hmem
      rw [hguests]
      refine List.mem_map.2 ⟨g, hg, ?_⟩
      simp [hmem]

/-- Witness for C5 at a concrete input: deleting the table frees its guest
(the guest reappears with a null table field) and no table with that id
remains; the theorem is applied at the concrete state. -/
theorem removeTable_spec_witness :
    { mkGuest "g1" "Ann" (some 1) with table := none } ∈
      (removeTableFromCanvas
        (mkState [mkGuest "g1" "Ann" (some 1), mkGuest "g2" "Bob" none]
          [mkTable "t1" 1 8 ["g1"] false]) "t1").guests :=
  ((removeTable_spec
      (mkState [mkGuest "g1" "Ann" (some 1), mkGuest "g2" "Bob" none]
        [mkTable "t1" 1 8 ["g1"] false]) "t1").2.2
    (mkTable "t1" 1 8 ["g1"] false) (by decide)
    (mkGuest "g1" "Ann" (some 1)) (by decide)).1 (by decide)

/-- The table lookup commutes with an id-keeping map over the table list. -/
theorem findTable_map (f : Table → Table) (hf : ∀ t, (f t).id = t.id)
    (l : List Table) (tid : String) :
    findTable (l.map f) tid = (findTable l tid).map f := by
  induction l with
  | nil => rfl
  | cons t l ih =>
      unfold findTable at *
      by_cases h : (t.id == tid)
      · rw [List.map_cons,
            @List.find?_cons_of_pos _ (fun u => u.id == tid) (f t) (l.map f)
              (by simp only [hf]; exact h),
            @List.find?_cons_of_pos _ (fun u => u.id == tid) t l h]
        rfl
      · rw [List.map_cons,
            @List.find?_cons_of_neg _ (fun u => u.id == tid) (f t) (l.map f)
              (by simp only [hf]; exact h),
            @List.find?_cons_of_neg _ (fun u => u.id == tid) t l h]
        exact ih

/-- Length of a list after filtering out one value: the length drops by the
number of occurrences. -/
theorem length_filter_ne (l : List String) (a : String) :
    (l.filter (fun x => !(x == a))).length = l.length - l.count a := by
  induction l with
  | nil => rfl
  | cons x l ih =>
      have hcle := List.count_le_length a l
      by_cases h : (x == a)
      · simp [List.filter_cons, List.count_cons, h, ih]
      · simp [List.filter_cons, List.count_cons, h, ih]
        omega

/-- Membership in a list after filtering out one value. -/
theorem mem_filter_ne (l : List String) (a b : String) :
    b ∈ l.filter (fun x => !(x == a)) ↔ b ∈ l ∧ b ≠ a := by
  simp [List.mem_filter]

/-- C4: reassigning a guest (present exactly once at table A) to a different,
non-full table B succeeds; afterwards A's occupancy has dropped by exactly 1,
B's has grown by exactly 1, the guest id is gone from A's set, present in B's
set, and exactly one canvas table holds the guest id. -/
theorem addGuestToTable_reassign (s : PlannerState) (gid tidA tidB : String)
    (tA tB : Table)
    (hneq : tidA ≠ tidB)
    (hA : findTable s.canvasTables tidA = some tA)
    (hB : findTable s.canvasTables tidB = some tB)
    (hroom : tB.guests.length < tB.capacity)
    (hcountA : tA.guests.count gid = 1)
    (hnotB : gid ∉ tB.guests)
    (hids : (s.canvasTables.map Table.id).Nodup) :
    (addGuestToTable s gid tidB).2 = AssignResult.assigned ∧
    tableOccupancy (addGuestToTable s gid tidB).1 tidA = some (tA.guests.length - 1) ∧
    tableOccupancy (addGuestToTable s gid tidB).1 tidB = some (tB.guests.length + 1) ∧
    tableHasGuest (addGuestToTable s gid tidB).1 tidA gid = some false ∧
    tableHasGuest (addGuestToTable s gid tidB).1 tidB gid = some true ∧
    tablesContaining (addGuestToTable s gid tidB).1 gid = 1 := by
  have hAid : tA.id = tidA := by
    have h := List.find?_some hA
    simpa using h
  have hBid : tB.id = tidB := by
    have h := List.find?_some hB
    simpa using h
  have hfull : ¬ tB.capacity ≤ tB.guests.length := Nat.not_le.2 hroom
  have hres : addGuestToTable s gid tidB =
      ({ s with
          canvasTables :=
            (s.canvasTables.map (stripGuest gid)).map (appendGuest gid tidB),
          guests := s.guests.map (setGuestTable gid tB.number) },
        AssignResult.assigned) := by
    unfold addGuestToTable
    simp only [hB]
    rw [if_neg hfull]
  have hfilterB : tB.guests.filter (fun g => !(g == gid)) = tB.guests :=
    List.filter_eq_self.mpr (fun b hb => by
      have hb2 : b ≠ gid := fun heq => hnotB (heq ▸ hb)
      simp [hb2])
  have hAneB : (tA.id == tidB) = false := by
    rw [hAid]; exact beq_eq_false_iff_ne.mpr hneq
  have hBeqB : (tB.id == tidB) = true := by rw [hBid]; exact beq_self_eq_true tidB
  rw [hres]
  refine ⟨rfl, ?_, ?_, ?_, ?_, ?_⟩
  · unfold tableOccupancy
    rw [findTable_map (appendGuest gid tidB) (appendGuest_id gid tidB),
        findTable_map (stripGuest gid) (stripGuest_id gid), hA]
    simp only [Option.map_some', appendGuest, stripGuest, hAneB,
      Bool.false_eq_true, if_false]
    rw [length_filter_ne, hcountA]
  · unfold tableOccupancy
    rw [findTable_map (appendGuest gid tidB) (appendGuest_id gid tidB),
        findTable_map (stripGuest gid) (stripGuest_id gid), hB]
    simp only [Option.map_some', appendGuest, stripGuest, hBeqB, if_true]
    rw [hfilterB]
    simp
  · unfold tableHasGuest
    rw [findTable_map (appendGuest gid tidB) (appendGuest_id gid tidB),
        findTable_map (stripGuest gid) (stripGuest_id gid), hA]
    simp only [Option.map_some', appendGuest, stripGuest, hAneB,
      Bool.false_eq_true, if_false]
    simp
  · unfold tableHasGuest
    rw [findTable_map (appendGuest gid tidB) (appendGuest_id gid tidB),
        findTable_map (stripGuest gid) (stripGuest_id gid), hB]
    simp only [Option.map_some', appendGuest, stripGuest, hBeqB, if_true]
    simp
  · unfold tablesContaining
    rw [List.countP_map, List.countP_map]
    simp only [Function.comp_def]
    have hpt : ∀ t ∈ s.canvasTables,
        ((appendGuest gid tidB (stripGuest gid t)).guests.contains gid) = true ↔
          (t.id == tidB) = true := by
      intro t ht
      by_cases h : (t.id == tidB) <;> simp [appendGuest, stripGuest, h]
    rw [List.countP_congr hpt]
    have hmem : tidB ∈ s.canvasTables.map Table.id :=
      List.mem_map.2 ⟨tB, List.mem_of_find?_eq_some hB, hBid⟩
    have h1 : (s.canvasTables.map Table.id).count tidB = 1 :=
      List.count_eq_one_of_mem hids hmem
    have h2 : (s.canvasTables.map Table.id).countP (fun x => x == tidB) =
        s.canvasTables.countP (fun t => t.id == tidB) :=
      List.countP_map _ _ _
    rw [← h2]
    exact h1

/-- Witness for C4 at a concrete input: guest g1 sits alone at table A
(capacity 2); table B (capacity 2) holds g2 only; reassigning g1 to B drops
A to 0 guests, raises B to 2, and g1 is held by exactly one table. -/
theorem addGuestToTable_reassign_witness :
    (addGuestToTable (mkState
        [mkGuest "g1" "Ann" (some 1), mkGuest "g2" "Bob" (some 2)]
        [mkTable "tA" 1 2 ["g1"] false, mkTable "tB" 2 2 ["g2"] false])
      "g1" "tB").2 = AssignResult.assigned ∧
    tableOccupancy (addGuestToTable (mkState
        [mkGuest "g1" "Ann" (some 1), mkGuest "g2" "Bob" (some 2)]
        [mkTable "tA" 1 2 ["g1"] false, mkTable "tB" 2 2 ["g2"] false])
      "g1" "tB").1 "tA" = some 0 ∧
    tableOccupancy (addGuestToTable (mkState
        [mkGuest "g1" "Ann" (some 1), mkGuest "g2" "Bob" (some 2)]
        [mkTable "tA" 1 2 ["g1"] false, mkTable "tB" 2 2 ["g2"] false])
      "g1" "tB").1 "tB" = some 2 ∧
    tableHasGuest (addGuestToTable (mkState
        [mkGuest "g1" "Ann" (some 1), mkGuest "g2" "Bob" (some 2)]
        [mkTable "tA" 1 2 ["g1"] false, mkTable "tB" 2 2 ["g2"] false])
      "g1" "tB").1 "tA" "g1" = some false ∧
    tableHasGuest (addGuestToTable (mkState
        [mkGuest "g1" "Ann" (some 1), mkGuest "g2" "Bob" (some 2)]
        [mkTable "tA" 1 2 ["g1"] false, mkTable "tB" 2 2 ["g2"] false])
      "g1" "tB").1 "tB" "g1" = some true ∧
    tablesContaining (addGuestToTable (mkState
        [mkGuest "g1" "Ann" (some 1), mkGuest "g2" "Bob" (some 2)]
        [mkTable "tA" 1 2 ["g1"] false, mkTable "tB" 2 2 ["g2"] false])
      "g1" "tB").1 "g1" = 1 :=
  addGuestToTable_reassign
    (mkState [mkGuest "g1" "Ann" (some 1), mkGuest "g2" "Bob" (some 2)]
      [mkTable "tA" 1 2 ["g1"] false, mkTable "tB" 2 2 ["g2"] false])
    "g1" "tA" "tB" (mkTable "tA" 1 2 ["g1"] false) (mkTable "tB" 2 2 ["g2"] false)
    (by decide) (by decide) (by decide) (by decide) (by decide) (by decide)
    (by decide)

/-- Unfolding lemma: distance from the empty first list. -/
theorem levAux_nil_left (ys : List Char) : levAux [] ys = ys.length := by
  simp [levAux]

/-- Unfolding lemma: distance to the empty second list. -/
theorem levAux_nil_right (xs : List Char) : levAux xs [] = xs.length := by
  cases xs with
  | nil => simp [levAux]
  | cons x xs => simp [levAux]

/-- Unfolding lemma: the textbook recurrence on two nonempty lists. -/
theorem levAux_cons_cons (x y : Char) (xs ys : List Char) :
    levAux (x :: xs) (y :: ys) =
      if x == y then levAux xs ys
      else 1 + Nat.min (levAux xs ys)
        (Nat.min (levAux xs (y :: ys)) (levAux (x :: xs) ys)) := by
  simp [levAux]

/-- Boolean character equality is symmetric. -/
theorem beq_comm_char (a b : Char) : (a == b) = (b == a) := by
  by_cases h : a = b
  · subst h; rfl
  · have h2 : ¬ b = a := fun hh => h hh.symm
    simp [h, h2]

/-- Commutativity of `Nat.min`, stated on `Nat.min` itself. -/
theorem nat_min_comm (a b : Nat) : Nat.min a b = Nat.min b a := by
  simp only [Nat.min_def]
  split_ifs <;> omega

/-- The three-way minimum of successors is the successor of the minimum. -/
theorem min3_succ (a b c : Nat) :
    Nat.min (a + 1) (Nat.min (b + 1) (c + 1)) = 1 + Nat.min a (Nat.min b c) := by
  simp only [Nat.min_def]
  split_ifs <;> omega

/-- The Levenshtein distance is symmetric. -/
theorem levAux_comm : ∀ xs ys : List Char, levAux xs ys = levAux ys xs := by
  intro xs ys
  induction xs, ys using levAux.induct with
  | case1 ys => rw [levAux_nil_left, levAux_nil_right]
  | case2 x xs => rw [levAux_nil_left, levAux_nil_right]
  | case3 x xs y ys hxy ih =>
      rw [levAux_cons_cons, levAux_cons_cons, if_pos hxy,
        if_pos ((beq_comm_char y x).trans hxy)]
      exact ih
  | case4 x xs y ys hxy ih1 ih2 ih3 =>
      rw [levAux_cons_cons, levAux_cons_cons, if_neg hxy,
        if_neg (fun h => hxy ((beq_comm_char x y).trans h))]
      rw [ih1, ih2, ih3,
        nat_min_comm (levAux (y :: ys) xs) (levAux ys (x :: xs))]

/-- The spec-side Levenshtein distance is symmetric. -/
theorem levenshteinSpec_comm (s1 s2 : String) :
    levenshteinSpec s1 s2 = levenshteinSpec s2 s1 :=
  levAux_comm _ _

/-- Row extension: one `levNext` pass turns the row of prefix distances
against consumed (reversed) prefix `q` into the row against `c :: q`. -/
theorem levNext_spec (c : Char) : ∀ (cs r1 q : List Char),
    levNext c cs (levAux r1 q) (specRow r1 q cs) (levAux r1 (c :: q)) =
      specRow r1 (c :: q) cs := by
  intro cs
  induction cs with
  | nil => intro r1 q; rfl
  | cons c1 cs ih =>
      intro r1 q
      have hv : (if c == c1 then levAux r1 q
          else Nat.min (levAux r1 q + 1)
            (Nat.min (levAux r1 (c :: q) + 1) (levAux (c1 :: r1) q + 1))) =
          levAux (c1 :: r1) (c :: q) := by
        rw [levAux_cons_cons]
        by_cases h : (c1 == c)
        · rw [if_pos ((beq_comm_char c c1).trans h), if_pos h]
        · rw [if_neg (fun hcc => h ((beq_comm_char c1 c).trans hcc)), if_neg h]
          rw [min3_succ]
      simp only [specRow, levNext]
      rw [hv, ih (c1 :: r1) q]

/-- Loop invariant of the row loop: starting from the correct row for the
reversed consumed prefix `q`, consuming `rest` yields the correct row for
`rest.reverse ++ q`. -/
theorem levLoop_spec (s1 : List Char) : ∀ (rest q : List Char),
    levLoop s1 rest q.length (q.length :: specRow [] q s1) =
      (rest.reverse ++ q).length :: specRow [] (rest.reverse ++ q) s1 := by
  intro rest
  induction rest with
  | nil => intro q; simp [levLoop]
  | cons c rest ih =>
      intro q
      simp only [levLoop]
      have h0 : levAux [] q = q.length := levAux_nil_left q
      have h1 : levAux [] (c :: q) = q.length + 1 := by
        rw [levAux_nil_left]; rfl
      have hnext : levNext c s1 q.length (specRow [] q s1) (q.length + 1) =
          specRow [] (c :: q) s1 := by
        rw [← h1, ← h0]
        exact levNext_spec c s1 [] q
      rw [hnext]
      have hlen : q.length + 1 = (c :: q).length := rfl
      rw [hlen, ih (c :: q)]
      have harr : rest.reverse ++ (c :: q) = (c :: rest).reverse ++ q := by
        simp
      rw [harr]

/-- The last entry of a row of prefix distances is the full-prefix distance. -/
theorem specRow_getLastD : ∀ (cs r1 q : List Char),
    (specRow r1 q cs).getLastD (levAux r1 q) = levAux (cs.reverse ++ r1) q := by
  intro cs
  induction cs with
  | nil => intro r1 q; rfl
  | cons c1 cs ih =>
      intro r1 q
      simp only [specRow, List.getLastD_cons]
      rw [ih (c1 :: r1) q]
      congr 1
      simp

/-- Row 0 of the matrix (`0, 1, ..., len1`) is the row of prefix distances
against the empty prefix. -/
theorem specRow_range : ∀ (cs r1 : List Char),
    specRow r1 [] cs = List.range' (r1.length + 1) cs.length := by
  intro cs
  induction cs with
  | nil => intro r1; rfl
  | cons c1 cs ih =>
      intro r1
      show levAux (c1 :: r1) [] :: specRow (c1 :: r1) [] cs = _
      rw [levAux_nil_right, ih (c1 :: r1)]
      rfl

/-- The source's dynamic program computes exactly the (spec-side) Levenshtein
distance of the two strings. -/
theorem levenshteinDistance_correct (str1 str2 : String) :
    levenshteinDistance str1 str2 = levenshteinSpec str1 str2 := by
  unfold levenshteinDistance levenshteinSpec
  have hrow0 : List.range (str1.data.length + 1) =
      0 :: specRow [] [] str1.data := by
    rw [specRow_range str1.data [], List.range_eq_range']
    rfl
  rw [hrow0]
  have h := levLoop_spec str1.data str2.data []
  simp only [List.length_nil, List.append_nil] at h
  rw [h, List.getLastD_cons,
    show str2.data.reverse.length = levAux [] str2.data.reverse from
      (levAux_nil_left _).symm,
    specRow_getLastD str1.data [] str2.data.reverse, List.append_nil]

/-- The source's similarity is exactly `(max - levenshtein) / max` on the two
string lengths, with the (symmetric, verified) Levenshtein distance. -/
theorem calculateSimilarity_spec (s1 s2 : String)
    (h : max s1.length s2.length ≠ 0) :
    calculateSimilarity s1 s2 =
      (((max s1.length s2.length : ℕ) : ℚ) - (levenshteinSpec s1 s2 : ℚ)) /
        ((max s1.length s2.length : ℕ) : ℚ) := by
  unfold calculateSimilarity
  by_cases hlt : s2.length < s1.length
  · have hmax : max s1.length s2.length = s1.length :=
      Nat.max_eq_left (Nat.le_of_lt hlt)
    rw [hmax] at h ⊢
    simp only [if_pos hlt]
    rw [if_neg h, levenshteinDistance_correct]
  · have hmax : max s1.length s2.length = s2.length :=
      Nat.max_eq_right (Nat.not_lt.1 hlt)
    rw [hmax] at h ⊢
    simp only [if_neg hlt]
    rw [if_neg h, levenshteinDistance_correct, levenshteinSpec_comm s2 s1]

/-- Membership after the fold underlying `dedupFirst`. -/
theorem dedupFirst_aux_mem : ∀ (l acc : List String) (a : String),
    (a ∈ l.foldl (fun acc x => if acc.contains x then acc else acc ++ [x]) acc) ↔
      a ∈ acc ∨ a ∈ l := by
  intro l
  induction l with
  | nil => intro acc a; simp
  | cons x l ih =>
      intro acc a
      simp only [List.foldl_cons]
      by_cases h : acc.contains x
      · rw [if_pos h, ih]
        have hx : x ∈ acc := by simpa using h
        constructor
        · rintro (ha | ha)
          · exact Or.inl ha
          · exact Or.inr (List.mem_cons_of_mem _ ha)
        · rintro (ha | ha)
          · exact Or.inl ha
          · rcases List.mem_cons.1 ha with rfl | ha
            · exact Or.inl hx
            · exact Or.inr ha
      · rw [if_neg h, ih]
        simp only [List.mem_append, List.mem_singleton, List.mem_cons]
        tauto

/-- The Set-based dedup keeps exactly the members of the input. -/
theorem dedupFirst_mem (l : List String) (a : String) :
    a ∈ dedupFirst l ↔ a ∈ l := by
  unfold dedupFirst
  rw [dedupFirst_aux_mem]
  simp

/-- The fold underlying `dedupFirst` keeps the accumulator duplicate-free. -/
theorem dedupFirst_aux_nodup : ∀ (l acc : List String), acc.Nodup →
    (l.foldl (fun acc x => if acc.contains x then acc else acc ++ [x]) acc).Nodup := by
  intro l
  induction l with
  | nil => intro acc h; exact h
  | cons x l ih =>
      intro acc h
      simp only [List.foldl_cons]
      by_cases hx : acc.contains x
      · rw [if_pos hx]; exact ih acc h
      · rw [if_neg hx]
        apply ih
        have hxn : x ∉ acc := by simpa using hx
        simp [List.nodup_append, h, hxn]

/-- The Set-based dedup returns a duplicate-free list. -/
theorem dedupFirst_nodup (l : List String) : (dedupFirst l).Nodup :=
  dedupFirst_aux_nodup l [] List.nodup_nil

/-- Concrete similarity value: "jon smith" vs "jon smyth" (one substitution
over nine characters). -/
theorem similarity_jon_smith_smyth :
    calculateSimilarity "jon smith" "jon smyth" = 8/9 := by
  have hlev : levenshteinDistance "jon smyth" "jon smith" = 1 := by decide
  have h1 : ("jon smith" : String).length = 9 := by decide
  have h2 : ("jon smyth" : String).length = 9 := by decide
  simp only [calculateSimilarity, h1, h2, hlev, lt_self_iff_false, if_false]
  norm_num

/-- Concrete similarity value, the other orientation. -/
theorem similarity_jon_smyth_smith :
    calculateSimilarity "jon smyth" "jon smith" = 8/9 := by
  have hlev : levenshteinDistance "jon smith" "jon smyth" = 1 := by decide
  have h1 : ("jon smith" : String).length = 9 := by decide
  have h2 : ("jon smyth" : String).length = 9 := by decide
  simp only [calculateSimilarity, h1, h2, hlev, lt_self_iff_false, if_false]
  norm_num

/-- C10 amended: the duplicate check flags every candidate that
case-insensitively equals an existing name as an exact duplicate; for every
candidate with no exact match, any distinct existing name of similarity above
0.8 produces a near-duplicate warning naming a stored guest (an exact match
suppresses the near check for that candidate - see the counterexample);
similarity is exactly `(max - levenshtein) / max`; every warning has either
the exact-match or the similar-to format; and the returned list holds no
repeated entry. -/
theorem checkForDuplicates_spec (guests : List Guest) (newNames : List String) :
    (∀ name ∈ newNames,
        strToLower name ∈ guests.map (fun g => strToLower g.name) →
        (name ++ " (exact match)") ∈ checkForDuplicates guests newNames) ∧
    (∀ name ∈ newNames,
        strToLower name ∉ guests.map (fun g => strToLower g.name) →
        ∀ existing ∈ guests.map (fun g => strToLower g.name),
          existing ≠ strToLower name →
          (8 : ℚ)/10 < calculateSimilarity (strToLower name) existing →
          ∃ g' ∈ guests, strToLower g'.name = existing ∧
            (name ++ " (similar to \"" ++ g'.name ++ "\")") ∈
              checkForDuplicates guests newNames) ∧
    (∀ s1 s2 : String, max s1.length s2.length ≠ 0 →
        calculateSimilarity s1 s2 =
          (((max s1.length s2.length : ℕ) : ℚ) - (levenshteinSpec s1 s2 : ℚ)) /
            ((max s1.length s2.length : ℕ) : ℚ)) ∧
    (∀ w ∈ checkForDuplicates guests newNames,
        (∃ name ∈ newNames, w = name ++ " (exact match)") ∨
        (∃ name ∈ newNames, ∃ m, w = name ++ " (similar to \"" ++ m ++ "\")")) ∧
    (checkForDuplicates guests newNames).Nodup := by
  refine ⟨?_, ?_, ?_, ?_, ?_⟩
  · intro name hname hmem
    unfold checkForDuplicates
    rw [dedupFirst_mem, List.mem_flatMap]
    refine ⟨name, hname, ?_⟩
    have hex2 := List.mem_map.1 hmem
    simp [hex2]
  · intro name hname hno existing hex hne hsim
    obtain ⟨g, hg, hgl⟩ := List.mem_map.1 hex
    have hfs : (guests.find? (fun g => strToLower g.name == existing)).isSome := by
      rw [List.find?_isSome]
      exact ⟨g, hg, by simp [hgl]⟩
    obtain ⟨g0, hg0⟩ := Option.isSome_iff_exists.1 hfs
    have hg0mem : g0 ∈ guests := List.mem_of_find?_eq_some hg0
    have hg0l : strToLower g0.name = existing := by
      have h := List.find?_some hg0
      simpa using h
    refine ⟨g0, hg0mem, hg0l, ?_⟩
    unfold checkForDuplicates
    rw [dedupFirst_mem, List.mem_flatMap]
    refine ⟨name, hname, ?_⟩
    have hc : ((guests.map (fun g => strToLower g.name)).contains (strToLower name))
        = false := by
      simpa using hno
    simp only [hc, Bool.false_eq_true, if_false]
    rw [List.mem_filterMap]
    refine ⟨existing, hex, ?_⟩
    rw [if_pos ⟨hne, hsim⟩, hg0]
  · intro s1 s2 h
    exact calculateSimilarity_spec s1 s2 h
  · intro w hw
    unfold checkForDuplicates at hw
    rw [dedupFirst_mem, List.mem_flatMap] at hw
    obtain ⟨name, hname, hw⟩ := hw
    by_cases hc : ((guests.map (fun g => strToLower g.name)).contains
        (strToLower name)) = true
    · left
      refine ⟨name, hname, ?_⟩
      simp only [hc, if_true] at hw
      simpa using hw
    · right
      refine ⟨name, hname, ?_⟩
      have hcf : ((guests.map (fun g => strToLower g.name)).contains
          (strToLower name)) = false :=
        Bool.eq_false_iff.mpr hc
      simp only [hcf, Bool.false_eq_true, if_false] at hw
      rw [List.mem_filterMap] at hw
      obtain ⟨existing, hex, hfe⟩ := hw
      by_cases hcond : (existing ≠ strToLower name ∧
          (8 : ℚ)/10 < calculateSimilarity (strToLower name) existing)
      · rw [if_pos hcond] at hfe
        exact ⟨_, (Option.some_inj.1 hfe).symm⟩
      · rw [if_neg hcond] at hfe
        exact absurd hfe (by simp)
  · exact dedupFirst_nodup _

/-- C10 counterexample: the candidate "jon smith" exact-matches the stored
"Jon Smith" and is 8/9-similar (above the 0.8 threshold) to the stored
"Jon Smyth", yet the returned warning list holds only the exact-match entry:
the exact match suppresses the near-duplicate report the claim promises. -/
theorem checkForDuplicates_counterexample :
    (8 : ℚ)/10 < calculateSimilarity "jon smith" "jon smyth" ∧
    checkForDuplicates
        [mkGuest "g1" "Jon Smith" none, mkGuest "g2" "Jon Smyth" none]
        ["jon smith"] = ["jon smith (exact match)"] := by
  constructor
  · rw [similarity_jon_smith_smyth]
    norm_num
  · decide

/-- Witness for the amended C10: the exact flag fires for "jon smith" against
the roster holding "Jon Smith", and the near flag fires for "jon smyth"
(similarity 8/9 > 0.8, no exact match); both by applying the theorem at the
concrete inputs. -/
theorem checkForDuplicates_spec_witness :
    ("jon smith" ++ " (exact match)") ∈
      checkForDuplicates [mkGuest "g1" "Jon Smith" none] ["jon smith"] ∧
    (∃ g' ∈ [mkGuest "g1" "Jon Smith" none], strToLower g'.name = "jon smith" ∧
      ("jon smyth" ++ " (similar to \"" ++ g'.name ++ "\")") ∈
        checkForDuplicates [mkGuest "g1" "Jon Smith" none] ["jon smyth"]) := by
  constructor
  · exact (checkForDuplicates_spec [mkGuest "g1" "Jon Smith" none]
      ["jon smith"]).1 "jon smith" (by decide) (by decide)
  · exact (checkForDuplicates_spec [mkGuest "g1" "Jon Smith" none]
      ["jon smyth"]).2.1 "jon smyth" (by decide) (by decide) "jon smith"
      (by decide) (by decide)
      (by rw [show strToLower "jon smyth" = "jon smyth" from by decide,
            similarity_jon_smyth_smith]; norm_num)
